import Mathlib

/-!
Shallow embedding of the echowait queueing server (`src/main.py`).

The durable JSON store (`queue_data.json`) is modelled by `Store`; the
in-memory `QueueSystem` class by `QueueSystem`.  Python dicts are modelled
as insertion-ordered association lists (`lookupA` / `upsertA` / `modifyA`
reproduce `d.get`, `d[k] = v` and in-place mutation of looked-up values).
Each HTTP route of `main.py` becomes a pure state transformer on `Sys`,
sequentialized (one request at a time), with `load_data`/`save_data`
modelled as reading/replacing the `store` field at exactly the program
points where the source calls them.
-/

set_option maxRecDepth 4000

/-- Association-list lookup, Python `dict.get`: first binding wins. -/
def lookupA {α β : Type} [DecidableEq α] (k : α) : List (α × β) → Option β
  | [] => none
  | (k', v) :: rest => if k' = k then some v else lookupA k rest

/-- Association-list insert-or-replace, Python `d[k] = v`: replacement keeps
the original position, a new key is appended at the end (dict insertion
order). -/
def upsertA {α β : Type} [DecidableEq α] (k : α) (v : β) : List (α × β) → List (α × β)
  | [] => [(k, v)]
  | (k', v') :: rest => if k' = k then (k, v) :: rest else (k', v') :: upsertA k v rest

/-- Apply `f` to the value stored under `k`, leaving absent keys untouched:
models Python loops that mutate `d.get(k, [])` in place. -/
def modifyA {α β : Type} [DecidableEq α] (k : α) (f : β → β) (l : List (α × β)) :
    List (α × β) :=
  l.map (fun p => if p.1 = k then (p.1, f p.2) else p)

/-- Ticket status strings of the store: `waiting`, `assigned`, `serving`, `done`. -/
inductive TStatus
  | waiting
  | assigned
  | serving
  | done
  deriving DecidableEq, Repr

/-- Desk status strings of the store: `empty`, `occupied`. -/
inductive DStatus
  | empty
  | occupied
  deriving DecidableEq, Repr

/-- One entry of `data["tickets"][service]`. -/
structure TicketRec where
  id : String
  status : TStatus
  desk : Option String := none
  deriving DecidableEq, Repr

/-- One entry of `data["desks"][service]`. -/
structure DeskRec where
  id : String
  status : DStatus
  current_ticket : Option String := none
  deriving DecidableEq, Repr

/-- The persisted snapshot (`queue_data.json`). -/
structure Store where
  desks : List (String × List DeskRec)
  tickets : List (String × List TicketRec)
  sessions : List (String × (String × String))
  deriving DecidableEq, Repr

/-- The in-memory `QueueSystem` class of `main.py`. -/
structure QueueSystem where
  queues : List (String × List String)
  ticket_counter : List (String × Nat)
  assigned : List ((String × String) × Option String)
  serving : List ((String × String) × Option String)
  deriving DecidableEq, Repr

/-- Full program state: in-memory `QueueSystem` plus the durable store. -/
structure Sys where
  mem : QueueSystem
  store : Store
  deriving DecidableEq, Repr

/-- First character of a string uppercased, `service[:1].upper()` (ASCII
uppercasing, which coincides with Python for the service names the server
handles). -/
def upperFirst (s : String) : String :=
  match s.data with
  | [] => ""
  | c :: _ => String.mk [c.toUpper]

/-- Ticket id format of `generate_ticket`:
`f"{service[:1].upper()}-{counter}"`. -/
def mkTicketId (service : String) (n : Nat) : String :=
  upperFirst service ++ "-" ++ toString n

/-- `QueueSystem.generate_ticket` together with its persistence block
(`main.py` lines 119-134). -/
def generate_ticket (service : String) (sys : Sys) : String × Sys :=
  let mem0 := sys.mem
  let mem1 :=
    if lookupA service mem0.ticket_counter = none then
      { mem0 with ticket_counter := upsertA service 0 mem0.ticket_counter,
                  queues := upsertA service [] mem0.queues }
    else mem0
  let cnt := (lookupA service mem1.ticket_counter).getD 0 + 1
  let ticket := mkTicketId service cnt
  let mem2 :=
    { mem1 with ticket_counter := upsertA service cnt mem1.ticket_counter,
                queues := (upsertA service
                  ((lookupA service mem1.queues).getD [] ++ [ticket]) mem1.queues) }
  let store2 :=
    { sys.store with tickets := (upsertA service
        ((lookupA service sys.store.tickets).getD [] ++
          [{ id := ticket, status := TStatus.waiting, desk := none }]) sys.store.tickets) }
  (ticket, { mem := mem2, store := store2 })

/-- `QueueSystem.add_ticket` (`main.py` lines 136-141): re-insert an existing
ticket into the waiting queue, skipping duplicates. -/
def add_ticket (service ticket_id : String) (mem : QueueSystem) : QueueSystem :=
  let mem1 :=
    if lookupA service mem.queues = none then
      { mem with queues := upsertA service [] mem.queues }
    else mem
  let q := (lookupA service mem1.queues).getD []
  if ticket_id ∈ q then mem1
  else { mem1 with queues := upsertA service (q ++ [ticket_id]) mem1.queues }

/-- `QueueSystem.next_ticket` (`main.py` lines 143-146): pop the head of the
service queue, `none` when missing or empty. -/
def next_ticket (service : String) (mem : QueueSystem) : Option String × QueueSystem :=
  match lookupA service mem.queues with
  | none => (none, mem)
  | some [] => (none, mem)
  | some (t :: rest) => (some t, { mem with queues := upsertA service rest mem.queues })

/-- `QueueSystem.queue_length`. -/
def queue_length (service : String) (mem : QueueSystem) : Nat :=
  ((lookupA service mem.queues).getD []).length

/-- `QueueSystem.set_assigned` (`main.py` lines 151-158): record the
assignment in memory and persist the desk's `current_ticket`. -/
def set_assigned (service desk : String) (ticket : Option String) (sys : Sys) : Sys :=
  { mem := { sys.mem with assigned := upsertA (service, desk) ticket sys.mem.assigned },
    store := { sys.store with desks := (modifyA service
      (List.map (fun d => if d.id = desk then { d with current_ticket := ticket } else d))
      sys.store.desks) } }

/-- `QueueSystem.get_assigned`: `self.assigned.get((service, desk))`. -/
def get_assigned (service desk : String) (mem : QueueSystem) : Option String :=
  (lookupA (service, desk) mem.assigned).join

/-- `QueueSystem.set_serving` (`main.py` lines 163-180): record the serving
ticket in memory, persist the ticket status and the desk record. -/
def set_serving (service desk : String) (ticket : Option String) (sys : Sys) : Sys :=
  let store1 :=
    { sys.store with tickets := (modifyA service
        (List.map (fun t => if some t.id = ticket then { t with status := TStatus.serving } else t))
        sys.store.tickets) }
  let store2 :=
    { store1 with desks := (modifyA service
        (List.map (fun d => if d.id = desk then
            { d with current_ticket := ticket, status := DStatus.occupied } else d))
        store1.desks) }
  { mem := { sys.mem with serving := upsertA (service, desk) ticket sys.mem.serving },
    store := store2 }

/-- `QueueSystem.get_serving`. -/
def get_serving (service desk : String) (mem : QueueSystem) : Option String :=
  (lookupA (service, desk) mem.serving).join

/-- Waiting tickets of a service in the store, the
`waiting_tickets` list of the `/next` route. -/
def storeWaiting (service : String) (st : Store) : List TicketRec :=
  ((lookupA service st.tickets).getD []).filter (fun t => t.status = TStatus.waiting)

/-- Placeholder record used only to express `waiting_tickets[0]` on a list
known to be a singleton. -/
def defaultTicket : TicketRec := { id := "", status := TStatus.waiting, desk := none }

/-- The `/next` guard loop over `queue_system.assigned.items()`: is `t`
recorded as assigned for `service` at any desk? -/
def memAssignedHas (service t : String) (mem : QueueSystem) : Bool :=
  mem.assigned.any (fun p => decide (p.1.1 = service) && decide (p.2 = some t))

/-- Responses of the `/next` route. -/
inductive NextRes
  | ok (ticket desk : String)
  | empty
  | busy (ticket : String)
  deriving DecidableEq, Repr

/-- Pop-and-assign part of the `/next` route (`main.py` lines 286-318),
reached when the busy guard does not fire.  The final `save_data(data)`
writes the snapshot loaded at the start of the route, with only the ticket
status changed, so the desk update persisted inside `set_assigned` is
overwritten. -/
def nextRouteGo (service desk : String) (sys : Sys) : NextRes × Sys :=
  match next_ticket service sys.mem with
  | (none, mem2) => (NextRes.empty, { sys with mem := mem2 })
  | (some t, mem2) =>
    let sys1 := set_assigned service desk (some t) { mem := mem2, store := sys.store }
    let store2 :=
      { sys.store with tickets := (modifyA service
          (List.map (fun tk => if tk.id = t then { tk with status := TStatus.assigned } else tk))
          sys.store.tickets) }
    (NextRes.ok t desk, { mem := sys1.mem, store := store2 })

/-- The `/next` route (`main.py` lines 264-318). -/
def nextRoute (service desk : String) (sys : Sys) : NextRes × Sys :=
  let waiting := storeWaiting service sys.store
  if waiting.length = 1 ∧
      memAssignedHas service (waiting.headD defaultTicket).id sys.mem = true then
    (NextRes.busy (waiting.headD defaultTicket).id, sys)
  else
    nextRouteGo service desk sys

/-- Responses of the `/confirm` route. -/
inductive ConfirmRes
  | ok (ticket desk : String)
  | mismatch
  deriving DecidableEq, Repr

/-- The `/confirm` route (`main.py` lines 377-420). -/
def confirmRoute (service desk ticket : String) (sys : Sys) : ConfirmRes × Sys :=
  if get_assigned service desk sys.mem = some ticket then
    let sysA := set_serving service desk (some ticket) sys
    let sysB := set_assigned service desk none sysA
    let data := sysB.store
    let data1 :=
      { data with tickets := (modifyA service
          (List.map (fun t => if t.id = ticket then
              { t with status := TStatus.serving, desk := some desk } else t))
          data.tickets) }
    let data2 :=
      { data1 with desks := (modifyA service
          (List.map (fun d => if d.id = desk then
              { d with status := DStatus.occupied, current_ticket := some ticket } else d))
          data1.desks) }
    (ConfirmRes.ok ticket desk, { mem := sysB.mem, store := data2 })
  else
    (ConfirmRes.mismatch, sys)

/-- Responses of the `/done` route. -/
inductive DoneRes
  | ok (ticket desk : String)
  | mismatch
  deriving DecidableEq, Repr

/-- The `/done` route (`main.py` lines 423-458). -/
def doneRoute (service desk ticket : String) (sys : Sys) : DoneRes × Sys :=
  if get_serving service desk sys.mem = some ticket then
    let sysA := set_serving service desk none sys
    let data := sysA.store
    let data1 :=
      { data with tickets := (modifyA service
          (List.map (fun t => if t.id = ticket then
              { t with status := TStatus.done, desk := none } else t))
          data.tickets) }
    let data2 :=
      { data1 with desks := (modifyA service
          (List.map (fun d => if d.id = desk then
              { d with current_ticket := none, status := DStatus.occupied } else d))
          data1.desks) }
    (DoneRes.ok ticket desk, { mem := sysA.mem, store := data2 })
  else
    (DoneRes.mismatch, sys)

/-- First desk record with the given id, the
`next((d for d in desks if d["id"] == desk_id), None)` idiom. -/
def firstDesk (service desk_id : String) (st : Store) : Option DeskRec :=
  ((lookupA service st.desks).getD []).find? (fun d => decide (d.id = desk_id))

/-- Owner lookup of the `/clerk/{service}/{desk_id}` route: first session
bound to this `(service, desk_id)` pair. -/
def ownerOf (service desk_id : String) (st : Store) : Option String :=
  (st.sessions.find? (fun p => decide (p.2.1 = service) && decide (p.2.2 = desk_id))).map
    Prod.fst

/-- In-place mutation of the first matching desk dict:
`desk["status"] = "occupied"`. -/
def updateFirstDesk (desk_id : String) : List DeskRec → List DeskRec
  | [] => []
  | d :: rest =>
    if d.id = desk_id then { d with status := DStatus.occupied } :: rest
    else d :: updateFirstDesk desk_id rest

/-- Outcomes of the `/clerk/{service}/{desk_id}` route: 404, redirect to the
working page for the owner, redirect back to desk selection, or a fresh
claim carrying the newly minted session token. -/
inductive ClerkRes
  | notFound
  | resumed
  | denied
  | fresh (token : String)
  deriving DecidableEq, Repr

/-- The `/clerk/{service}/{desk_id}` route (`main.py` lines 321-356).
`cookie` is the request's `session_id` cookie; `newTok` stands for the
`uuid.uuid4()` value minted on a fresh claim. -/
def clerkSelect (service desk_id : String) (cookie : Option String) (newTok : String)
    (sys : Sys) : ClerkRes × Sys :=
  match firstDesk service desk_id sys.store with
  | none => (ClerkRes.notFound, sys)
  | some dsk =>
    if dsk.status = DStatus.occupied then
      match ownerOf service desk_id sys.store with
      | some owner =>
        if owner ≠ "" ∧ cookie = some owner then (ClerkRes.resumed, sys)
        else (ClerkRes.denied, sys)
      | none => (ClerkRes.denied, sys)
    else
      (ClerkRes.fresh newTok,
        { sys with store :=
          { sys.store with
            desks := (upsertA service
              (updateFirstDesk desk_id ((lookupA service sys.store.desks).getD []))
              sys.store.desks),
            sessions := (upsertA newTok (service, desk_id) sys.store.sessions) } })

/-- Responses of the read-only `/clerk_state` route. -/
inductive ClerkStateRes
  | idle
  | assignedTo (ticket : String)
  | servingAt (ticket : String)
  deriving DecidableEq, Repr

/-- The `/clerk_state` route (`main.py` lines 472-488). -/
def clerkState (service desk : String) (st : Store) : ClerkStateRes :=
  match firstDesk service desk st with
  | none => ClerkStateRes.idle
  | some di =>
    match di.current_ticket with
    | none => ClerkStateRes.idle
    | some ct =>
      if ct = "" then ClerkStateRes.idle
      else
        match ((lookupA service st.tickets).getD []).find? (fun t => decide (t.id = ct)) with
        | none => ClerkStateRes.idle
        | some ti =>
          if ti.status = TStatus.serving then ClerkStateRes.servingAt ct
          else if ti.status = TStatus.assigned then ClerkStateRes.assignedTo ct
          else ClerkStateRes.idle

/-- Startup normalization of `init_data_file` (`main.py` lines 43-57): any
ticket persisted as `assigned` is rewritten to `waiting`. -/
def normalizeStore (st : Store) : Store :=
  { st with tickets := (st.tickets.map (fun p =>
      (p.1, p.2.map (fun t =>
        if t.status = TStatus.assigned then { t with status := TStatus.waiting } else t)))) }

/-- Python `str.split("-")` over a character list: separators delimit
(possibly empty) fields. -/
def splitDash : List Char → List (List Char)
  | [] => [[]]
  | c :: rest =>
    let r := splitDash rest
    if c = '-' then [] :: r
    else
      match r with
      | [] => [[c]]
      | h :: t => (c :: h) :: t

/-- Python `int(x)` on a nonnegative decimal string, `none` where `int`
would raise. -/
def decNat? (l : List Char) : Option Nat :=
  if l = [] then none
  else if l.all (fun c => c.isDigit) then
    some (l.foldl (fun acc c => acc * 10 + (c.toNat - 48)) 0)
  else none

/-- `int(t["id"].split("-")[1])`, totalized: ids where the source would
raise parse to 0. -/
def parseSeq (id : String) : Nat :=
  (decNat? ((splitDash id.data).getD 1 [])).getD 0

/-- `max(int(t["id"].split("-")[1]) for t in tickets)` over a ticket list. -/
def maxSeq (ts : List TicketRec) : Nat :=
  ts.foldr (fun t m => Nat.max (parseSeq t.id) m) 0

/-- Queue rebuild of `QueueSystem.restore_state`: waiting ids per service in
store order. -/
def restoreQueues (st : Store) : List (String × List String) :=
  st.tickets.map (fun p =>
    (p.1, (p.2.filter (fun t => t.status = TStatus.waiting)).map TicketRec.id))

/-- Counter rebuild of `QueueSystem.restore_state`: maximum existing sequence
number, set only for services with at least one persisted ticket. -/
def restoreCounters (st : Store) : List (String × Nat) :=
  (st.tickets.filter (fun p => !p.2.isEmpty)).map (fun p => (p.1, maxSeq p.2))

/-- Desk loop body of `QueueSystem.restore_state` (`main.py` lines 106-117). -/
def restoreDesk (st : Store) (service : String) (mem : QueueSystem) (d : DeskRec) :
    QueueSystem :=
  match d.current_ticket with
  | none => mem
  | some ct =>
    if ct = "" then mem
    else
      let mem1 := { mem with assigned := upsertA (service, d.id) (some ct) mem.assigned }
      match ((lookupA service st.tickets).getD []).find? (fun t => decide (t.id = ct)) with
      | none => mem1
      | some ti =>
        if ti.status = TStatus.serving then
          { mem1 with serving := upsertA (service, d.id) (some ct) mem1.serving }
        else mem1

/-- `QueueSystem.restore_state` (`main.py` lines 93-117). -/
def restoreState (st : Store) : QueueSystem :=
  let base : QueueSystem :=
    { queues := restoreQueues st, ticket_counter := restoreCounters st,
      assigned := [], serving := [] }
  st.desks.foldl (fun mem p => p.2.foldl (restoreDesk st p.1) mem) base

/-- Lifespan startup loop (`main.py` lines 196-200): re-add every waiting
ticket through `add_ticket`. -/
def lifespanRestore (st : Store) (mem : QueueSystem) : QueueSystem :=
  st.tickets.foldl (fun m p =>
    (p.2.filter (fun t => t.status = TStatus.waiting)).foldl
      (fun m2 t => add_ticket p.1 t.id m2) m) mem

/-- Process restart on a persisted store: `init_data_file` normalization,
`QueueSystem.restore_state` on the normalized file, then the lifespan
`add_ticket` loop. -/
def restartSys (st : Store) : Sys :=
  let st2 := normalizeStore st
  let mem := restoreState st2
  { mem := lifespanRestore st2 mem, store := st2 }

/-- Configured initial desks of `config.ensure_config`: per service, desks
numbered from 1, all `empty`, no `current_ticket`. -/
def initDesks (services : List (String × Nat)) : List (String × List DeskRec) :=
  services.map (fun p =>
    (p.1, (List.range p.2).map (fun i =>
      { id := toString (i + 1), status := DStatus.empty, current_ticket := none })))

/-- Fresh server state over a configured set of services: empty queues,
no tickets, no sessions. -/
def initSys (services : List (String × Nat)) : Sys :=
  { mem := { queues := [], ticket_counter := [], assigned := [], serving := [] },
    store := { desks := initDesks services, tickets := [], sessions := [] } }

/-- One external operation of the server, as fired by the HTTP routes. -/
inductive Step : Sys → Sys → Prop
  | issue (service : String) (s : Sys) : Step s (generate_ticket service s).2
  | callNext (service desk : String) (s : Sys) : Step s (nextRoute service desk s).2
  | confirm (service desk ticket : String) (s : Sys) :
      Step s (confirmRoute service desk ticket s).2
  | complete (service desk ticket : String) (s : Sys) :
      Step s (doneRoute service desk ticket s).2
  | claim (service desk_id : String) (cookie : Option String) (tok : String) (s : Sys) :
      Step s (clerkSelect service desk_id cookie tok s).2

/-- States reachable from a configured fresh server by any operation
sequence. -/
inductive Reachable : Sys → Prop
  | init (services : List (String × Nat)) : Reachable (initSys services)
  | step {s s' : Sys} : Reachable s → Step s s' → Reachable s'

/-- Number of sessions bound to one `(service, desk_id)` pair. -/
def boundSessions (service desk_id : String) (st : Store) : Nat :=
  st.sessions.countP (fun p => decide (p.2 = (service, desk_id)))

/-- Session-exclusivity invariant on the store: at most one session is
bound to any `(service, desk)` pair, and a desk whose record is `empty` has
no bound session. -/
def SessInv (st : Store) : Prop :=
  ∀ service desk_id : String,
    boundSessions service desk_id st ≤ 1 ∧
    (∀ d : DeskRec, firstDesk service desk_id st = some d →
      d.status = DStatus.empty → boundSessions service desk_id st = 0)

/-- Issue `n` tickets for one service, returning them in order. -/
def issueN (service : String) : Nat → Sys → List String × Sys
  | 0, sys => ([], sys)
  | n + 1, sys =>
    let p := generate_ticket service sys
    let pr := issueN service n p.2
    (p.1 :: pr.1, pr.2)

/-- Run a sequence of `CallNext` calls for one service with the given desk
per call, collecting the responses. -/
def runNexts (service : String) : List String → Sys → List NextRes × Sys
  | [], sys => ([], sys)
  | d :: rest, sys =>
    let p := nextRoute service d sys
    let pr := runNexts service rest p.2
    (p.1 :: pr.1, pr.2)

/-- Successful (`status: ok`) `CallNext` response. -/
def isOk : NextRes → Bool
  | NextRes.ok _ _ => true
  | _ => false

/-- Tickets carried by the successful responses, in order. -/
def okTickets (rs : List NextRes) : List String :=
  rs.filterMap (fun r =>
    match r with
    | NextRes.ok t _ => some t
    | _ => none)

/-- Ticket ids with sequence numbers `k+1, …, k+n`. -/
def idsFrom (service : String) (k n : Nat) : List String :=
  (List.range n).map (fun i => mkTicketId service (k + i + 1))

-- Concrete scenarios exercised by the claims.

/-- One configured desk for service `deposit`, one issued ticket. -/
def sysIssue1 : Sys := (generate_ticket "deposit" (initSys [("deposit", 1)])).2

/-- `sysIssue1` followed by `CallNext("deposit", "1")`. -/
def sysCalled1 : Sys := (nextRoute "deposit" "1" sysIssue1).2

/-- Three issued `deposit` tickets, then `CallNext("deposit", "1")`. -/
def sysPreRestart : Sys :=
  (nextRoute "deposit" "1"
    (generate_ticket "deposit"
      (generate_ticket "deposit"
        (generate_ticket "deposit" (initSys [("deposit", 1)])).2).2).2).2

/-- `sysPreRestart` after a simulated process restart (normalize, restore,
lifespan requeue). -/
def sysRestarted : Sys := restartSys sysPreRestart.store

/-- Two issued `deposit` tickets on a two-desk configuration. -/
def sysTwo : Sys :=
  (generate_ticket "deposit"
    (generate_ticket "deposit" (initSys [("deposit", 2)])).2).2

/-- `sysTwo` followed by `CallNext("deposit", "1")`: one waiting ticket
remains while `D-1` is in Assigned state. -/
def sysTwoCalled : Sys := (nextRoute "deposit" "1" sysTwo).2

/-- A fresh claim of desk 1 for `deposit` with session token `tok-1`. -/
def sysClaimed : Sys :=
  (clerkSelect "deposit" "1" none "tok-1" (initSys [("deposit", 1)])).2

/-- C1: after `IssueTicket("deposit")` and `CallNext("deposit","1")`, the
store holds a ticket with status `assigned` that no desk references via
`current_ticket`: the route's final `save_data` writes the snapshot it
loaded before `set_assigned` persisted the desk binding, so the Assigned
ticket is referenced by zero desks instead of exactly one. -/
theorem C1_assigned_ticket_unreferenced_in_store :
    (∃ t ∈ (lookupA "deposit" sysCalled1.store.tickets).getD [],
      t.id = "D-1" ∧ t.status = TStatus.assigned) ∧
    ((lookupA "deposit" sysCalled1.store.desks).getD []).countP
      (fun d => decide (d.current_ticket = some "D-1")) = 0 := by decide

/-- C2: a successful `CallNext("deposit","1")` returns `D-1` and records the
assignment in memory and the ticket status `assigned` in the store, but the
persisted desk record's `current_ticket` stays `none` — the in-memory view
and the durable snapshot disagree after the operation completes. -/
theorem C2_callnext_store_memory_divergence :
    (nextRoute "deposit" "1" sysIssue1).1 = NextRes.ok "D-1" "1" ∧
    get_assigned "deposit" "1" sysCalled1.mem = some "D-1" ∧
    (∃ t ∈ (lookupA "deposit" sysCalled1.store.tickets).getD [],
      t.id = "D-1" ∧ t.status = TStatus.assigned) ∧
    (firstDesk "deposit" "1" sysCalled1.store).bind DeskRec.current_ticket = none := by
  decide

/-- C5 counterexample: after `IssueTicket("deposit")` three times and
`CallNext("deposit","1")` once, the simulated restart shows 3 waiting
tickets, not the 2 the claim states: normalization turns the assigned
ticket back to `waiting`, so it rejoins the waiting set. -/
theorem C5_restart_counterexample :
    (storeWaiting "deposit" sysRestarted.store).length = 3 ∧
    ¬ (storeWaiting "deposit" sysRestarted.store).length = 2 := by decide

/-- C5 amended: before the restart the store holds 2 waiting tickets and the
first issued ticket `D-1` (the one `CallNext` popped) with status
`assigned`; after the simulated restart exactly 3 tickets are waiting, the
normalized `D-1` among them, and no ticket with status `assigned`
survives. -/
theorem C5_restart_recovery_amended :
    (storeWaiting "deposit" sysPreRestart.store).length = 2 ∧
    (∃ t ∈ (lookupA "deposit" sysPreRestart.store.tickets).getD [],
      t.id = "D-1" ∧ t.status = TStatus.assigned) ∧
    (storeWaiting "deposit" sysRestarted.store).length = 3 ∧
    (∀ t ∈ (lookupA "deposit" sysRestarted.store.tickets).getD [],
      t.status = TStatus.waiting) ∧
    (∃ t ∈ (lookupA "deposit" sysRestarted.store.tickets).getD [],
      t.id = "D-1" ∧ t.status = TStatus.waiting) := by decide

/-- C9 counterexample: `CallNext` on the unknown service `ghost` is answered
with the success-shaped `empty` response and no error — the unknown service
is treated exactly like an empty queue, not surfaced as NotFound. -/
theorem C9_notfound_counterexample :
    nextRoute "ghost" "1" (initSys [("deposit", 1)]) =
      (NextRes.empty, initSys [("deposit", 1)]) := by decide

-- Association-list lemmas.

theorem lookupA_upsertA_self {α β : Type} [DecidableEq α] (k : α) (v : β)
    (l : List (α × β)) : lookupA k (upsertA k v l) = some v := by
  induction l with
  | nil => simp [upsertA, lookupA]
  | cons p rest ih =>
    by_cases h : p.1 = k
    · simp [upsertA, lookupA, h]
    · simpa [upsertA, lookupA, h] using ih

theorem lookupA_upsertA_ne {α β : Type} [DecidableEq α] {k k' : α} (hne : k ≠ k')
    (v : β) (l : List (α × β)) : lookupA k' (upsertA k v l) = lookupA k' l := by
  induction l with
  | nil => simp [upsertA, lookupA, hne]
  | cons p rest ih =>
    by_cases h : p.1 = k
    · rw [show upsertA k v (p :: rest) = (k, v) :: rest by simp [upsertA, h]]
      have hp : ¬ p.1 = k' := by rw [h]; exact hne
      simp [lookupA, hne, hp]
    · rw [show upsertA k v (p :: rest) = p :: upsertA k v rest by simp [upsertA, h]]
      simp [lookupA, ih]

theorem mem_upsertA {α β : Type} [DecidableEq α] {l : List (α × β)} {k : α} {v : β}
    {x : α × β} (hx : x ∈ upsertA k v l) : x = (k, v) ∨ x ∈ l := by
  induction l with
  | nil => simpa [upsertA] using hx
  | cons p rest ih =>
    by_cases h : p.1 = k
    · rw [show upsertA k v (p :: rest) = (k, v) :: rest by simp [upsertA, h]] at hx
      rcases List.mem_cons.mp hx with h1 | h1
      · exact Or.inl h1
      · exact Or.inr (List.mem_cons_of_mem _ h1)
    · rw [show upsertA k v (p :: rest) = p :: upsertA k v rest by simp [upsertA, h]] at hx
      rcases List.mem_cons.mp hx with h1 | h1
      · exact Or.inr (h1 ▸ List.mem_cons_self _ _)
      · rcases ih h1 with h2 | h2
        · exact Or.inl h2
        · exact Or.inr (List.mem_cons_of_mem _ h2)

theorem countP_upsertA_le_succ {α β : Type} [DecidableEq α] (p : α × β → Bool) (k : α)
    (v : β) (l : List (α × β)) : (upsertA k v l).countP p ≤ l.countP p + 1 := by
  induction l with
  | nil =>
    cases hv : p (k, v) <;> simp [upsertA, List.countP_cons, hv]
  | cons q rest ih =>
    by_cases h : q.1 = k
    · rw [show upsertA k v (q :: rest) = (k, v) :: rest by simp [upsertA, h]]
      rw [List.countP_cons, List.countP_cons]
      cases hv : p (k, v) <;> cases hq2 : p q <;> simp <;> omega
    · rw [show upsertA k v (q :: rest) = q :: upsertA k v rest by simp [upsertA, h]]
      rw [List.countP_cons, List.countP_cons]
      cases hq2 : p q <;> simp <;> omega

theorem countP_upsertA_le {α β : Type} [DecidableEq α] {p : α × β → Bool} {k : α}
    {v : β} (hp : p (k, v) = false) (l : List (α × β)) :
    (upsertA k v l).countP p ≤ l.countP p := by
  induction l with
  | nil => simp [upsertA, List.countP_cons, hp]
  | cons q rest ih =>
    by_cases h : q.1 = k
    · rw [show upsertA k v (q :: rest) = (k, v) :: rest by simp [upsertA, h]]
      rw [List.countP_cons, List.countP_cons, hp]
      cases hq2 : p q <;> simp <;> omega
    · rw [show upsertA k v (q :: rest) = q :: upsertA k v rest by simp [upsertA, h]]
      rw [List.countP_cons, List.countP_cons]
      cases hq2 : p q <;> simp <;> omega

-- Behaviour of one CallNext call.

theorem nextRouteGo_not_busy (service desk : String) (sys : Sys) (t : String) :
    (nextRouteGo service desk sys).1 ≠ NextRes.busy t := by
  unfold nextRouteGo
  rcases h : next_ticket service sys.mem with ⟨o, m⟩
  rcases o with _ | t' <;> simp

theorem nextRoute_spec (service desk : String) (sys : Sys) (q : List String)
    (hq : lookupA service sys.mem.queues = some q) :
    (∃ t, (nextRoute service desk sys).1 = NextRes.busy t ∧
      (nextRoute service desk sys).2 = sys) ∨
    (q = [] ∧ nextRoute service desk sys = (NextRes.empty, sys)) ∨
    (∃ t tl, q = t :: tl ∧ (nextRoute service desk sys).1 = NextRes.ok t desk ∧
      lookupA service (nextRoute service desk sys).2.mem.queues = some tl) := by
  unfold nextRoute
  by_cases hg : (storeWaiting service sys.store).length = 1 ∧
      memAssignedHas service ((storeWaiting service sys.store).headD defaultTicket).id
        sys.mem = true
  · rw [if_pos hg]
    exact Or.inl ⟨_, rfl, rfl⟩
  · rw [if_neg hg]
    right
    unfold nextRouteGo next_ticket
    rw [hq]
    cases q with
    | nil => exact Or.inl ⟨rfl, rfl⟩
    | cons t tl =>
      right
      refine ⟨t, tl, rfl, rfl, ?_⟩
      simp only [set_assigned]
      exact lookupA_upsertA_self service tl sys.mem.queues

theorem isOk_iff (r : NextRes) : isOk r = true ↔ ∃ t d, r = NextRes.ok t d := by
  cases r <;> simp [isOk]

theorem runNexts_ok (service : String) :
    ∀ (ds : List String) (sys : Sys) (q : List String),
      lookupA service sys.mem.queues = some q →
      (∀ r ∈ (runNexts service ds sys).1, isOk r = true) →
      okTickets (runNexts service ds sys).1 = q.take ds.length := by
  intro ds
  induction ds with
  | nil => intro sys q hq h; simp [runNexts, okTickets]
  | cons d rest ih =>
    intro sys q hq h
    have hmem : (nextRoute service d sys).1 ∈ (runNexts service (d :: rest) sys).1 := by
      simp [runNexts]
    have hr := (isOk_iff _).mp (h _ hmem)
    rcases nextRoute_spec service d sys q hq with ⟨t, hb, _⟩ | ⟨hq0, he⟩ |
        ⟨t, tl, hqe, hok, hq'⟩
    · rcases hr with ⟨t', d', h'⟩
      rw [hb] at h'
      cases h'
    · rcases hr with ⟨t', d', h'⟩
      rw [he] at h'
      cases h'
    · subst hqe
      have hrest : ∀ r ∈ (runNexts service rest (nextRoute service d sys).2).1,
          isOk r = true := by
        intro r hrm
        exact h r (by simp [runNexts, hrm])
      have hih := ih (nextRoute service d sys).2 tl hq' hrest
      have hstep : (runNexts service (d :: rest) sys).1 =
          (nextRoute service d sys).1 ::
            (runNexts service rest (nextRoute service d sys).2).1 := rfl
      rw [hstep, hok]
      calc okTickets (NextRes.ok t d ::
              (runNexts service rest (nextRoute service d sys).2).1)
          = t :: okTickets (runNexts service rest (nextRoute service d sys).2).1 := rfl
        _ = t :: tl.take rest.length := by rw [hih]
        _ = (t :: tl).take (d :: rest).length := rfl

-- Ticket issuing.

theorem generate_ticket_spec (service : String) (sys : Sys) (k : Nat) (q : List String)
    (hc : lookupA service sys.mem.ticket_counter = some k)
    (hq : lookupA service sys.mem.queues = some q) :
    (generate_ticket service sys).1 = mkTicketId service (k + 1) ∧
    lookupA service (generate_ticket service sys).2.mem.ticket_counter = some (k + 1) ∧
    lookupA service (generate_ticket service sys).2.mem.queues =
      some (q ++ [mkTicketId service (k + 1)]) := by
  simp [generate_ticket, hc, hq, lookupA_upsertA_self]

theorem generate_ticket_spec0 (service : String) (sys : Sys)
    (hc : lookupA service sys.mem.ticket_counter = none) :
    (generate_ticket service sys).1 = mkTicketId service 1 ∧
    lookupA service (generate_ticket service sys).2.mem.ticket_counter = some 1 ∧
    lookupA service (generate_ticket service sys).2.mem.queues =
      some [mkTicketId service 1] := by
  simp [generate_ticket, hc, lookupA_upsertA_self]

theorem idsFrom_succ (service : String) (k n : Nat) :
    idsFrom service k (n + 1) = mkTicketId service (k + 1) :: idsFrom service (k + 1) n := by
  unfold idsFrom
  rw [List.range_succ_eq_map, List.map_cons, List.map_map]
  have hf : ((fun i => mkTicketId service (k + i + 1)) ∘ Nat.succ) =
      (fun i => mkTicketId service (k + 1 + i + 1)) := by
    funext i
    simp only [Function.comp_apply]
    congr 1
    omega
  rw [hf]

theorem issueN_aux (service : String) :
    ∀ (n : Nat) (sys : Sys) (k : Nat) (q : List String),
      lookupA service sys.mem.ticket_counter = some k →
      lookupA service sys.mem.queues = some q →
      (issueN service n sys).1 = idsFrom service k n ∧
      lookupA service (issueN service n sys).2.mem.ticket_counter = some (k + n) ∧
      lookupA service (issueN service n sys).2.mem.queues =
        some (q ++ idsFrom service k n) := by
  intro n
  induction n with
  | zero => intro sys k q hc hq; simp [issueN, idsFrom, hc, hq]
  | succ m ih =>
    intro sys k q hc hq
    obtain ⟨h1, h2, h3⟩ := generate_ticket_spec service sys k q hc hq
    obtain ⟨a1, a2, a3⟩ := ih (generate_ticket service sys).2 (k + 1)
      (q ++ [mkTicketId service (k + 1)]) h2 h3
    refine ⟨?_, ?_, ?_⟩
    · show (generate_ticket service sys).1 ::
        (issueN service m (generate_ticket service sys).2).1 = _
      rw [h1, a1, idsFrom_succ]
    · show lookupA service (issueN service m (generate_ticket service sys).2).2.mem.ticket_counter = _
      rw [a2]
      have : k + 1 + m = k + (m + 1) := by omega
      rw [this]
    · show lookupA service (issueN service m (generate_ticket service sys).2).2.mem.queues = _
      rw [a3, idsFrom_succ, List.append_assoc]
      rfl

theorem issueN_init (cfg : List (String × Nat)) (service : String) (n : Nat) :
    (issueN service n (initSys cfg)).1 = idsFrom service 0 n ∧
    (n = 0 ∨ lookupA service (issueN service n (initSys cfg)).2.mem.queues =
      some (idsFrom service 0 n)) := by
  cases n with
  | zero => simp [issueN, idsFrom]
  | succ m =>
    have hc : lookupA service (initSys cfg).mem.ticket_counter = none := rfl
    obtain ⟨h1, h2, h3⟩ := generate_ticket_spec0 service (initSys cfg) hc
    obtain ⟨a1, a2, a3⟩ := issueN_aux service m (generate_ticket service (initSys cfg)).2
      1 [mkTicketId service 1] h2 h3
    constructor
    · show (generate_ticket service (initSys cfg)).1 ::
        (issueN service m (generate_ticket service (initSys cfg)).2).1 = _
      rw [h1, a1, idsFrom_succ]
    · refine Or.inr ?_
      show lookupA service (issueN service m (generate_ticket service (initSys cfg)).2).2.mem.queues = _
      rw [a3, idsFrom_succ]
      rfl

theorem nextRoute_init (cfg : List (String × Nat)) (service d : String) :
    nextRoute service d (initSys cfg) = (NextRes.empty, initSys cfg) := rfl

theorem idsFrom_zero (service : String) (n : Nat) :
    idsFrom service 0 n = (List.range n).map (fun i => mkTicketId service (i + 1)) := by
  simp [idsFrom, Nat.zero_add]

/-- C3: from a fresh configured state, after issuing `n` tickets for a
service, any sequence of `CallNext` calls that all succeed returns exactly
the issued tickets in issuance order (the first `ds.length` of them; all of
them when as many calls as tickets are made), with sequence numbers
`1, …, n` in order. -/
theorem C3_callnext_fifo (cfg : List (String × Nat)) (service : String) (n : Nat)
    (ds : List String)
    (h : ∀ r ∈ (runNexts service ds (issueN service n (initSys cfg)).2).1,
      isOk r = true) :
    okTickets (runNexts service ds (issueN service n (initSys cfg)).2).1 =
      (issueN service n (initSys cfg)).1.take ds.length ∧
    (issueN service n (initSys cfg)).1 =
      (List.range n).map (fun i => mkTicketId service (i + 1)) ∧
    (ds.length = n →
      okTickets (runNexts service ds (issueN service n (initSys cfg)).2).1 =
        (issueN service n (initSys cfg)).1) := by
  obtain ⟨hi1, hc⟩ := issueN_init cfg service n
  rcases hc with h0 | hq
  · subst h0
    cases ds with
    | nil =>
      refine ⟨by simp [runNexts, okTickets], by rw [hi1, idsFrom_zero], fun _ => ?_⟩
      simp [runNexts, okTickets, hi1, idsFrom]
    | cons d rest =>
      exfalso
      have hmem : (nextRoute service d (issueN service 0 (initSys cfg)).2).1 ∈
          (runNexts service (d :: rest) (issueN service 0 (initSys cfg)).2).1 := by
        simp [runNexts]
      have := h _ hmem
      rw [show (issueN service 0 (initSys cfg)).2 = initSys cfg from rfl,
        nextRoute_init] at this
      simp [isOk] at this
  · have hmain := runNexts_ok service ds (issueN service n (initSys cfg)).2
      (idsFrom service 0 n) hq h
    refine ⟨by rw [hmain, hi1], by rw [hi1, idsFrom_zero], fun hlen => ?_⟩
    rw [hmain, hi1]
    have hlen2 : (idsFrom service 0 n).length = ds.length := by
      simp [idsFrom, hlen]
    rw [← hlen2, List.take_length]

/-- C3 witness: three issued `deposit` tickets, two successful calls return
`D-1` then `D-2`. -/
theorem C3_callnext_fifo_witness :
    okTickets (runNexts "deposit" ["1", "2"]
        (issueN "deposit" 3 (initSys [("deposit", 2)])).2).1 =
      (issueN "deposit" 3 (initSys [("deposit", 2)])).1.take 2 :=
  (C3_callnext_fifo [("deposit", 2)] "deposit" 3 ["1", "2"] (by decide)).1

/-- C6: a `Confirm` whose ticket differs from the desk's current assigned
slot, and a `Complete` whose ticket differs from the desk's current serving
slot, each return the mismatch error and leave the whole state (memory and
store) unchanged, for any prior state. -/
theorem C6_mismatch_rejection (sys : Sys) (service desk ticket : String) :
    (get_assigned service desk sys.mem ≠ some ticket →
      confirmRoute service desk ticket sys = (ConfirmRes.mismatch, sys)) ∧
    (get_serving service desk sys.mem ≠ some ticket →
      doneRoute service desk ticket sys = (DoneRes.mismatch, sys)) := by
  constructor
  · intro h
    unfold confirmRoute
    rw [if_neg h]
  · intro h
    unfold doneRoute
    rw [if_neg h]

/-- C6 witness at a concrete state: `D-9` is neither assigned nor serving at
desk 1, so both calls reject with no change. -/
theorem C6_mismatch_rejection_witness :
    confirmRoute "deposit" "1" "D-9" sysIssue1 = (ConfirmRes.mismatch, sysIssue1) ∧
    doneRoute "deposit" "1" "D-9" sysIssue1 = (DoneRes.mismatch, sysIssue1) :=
  ⟨(C6_mismatch_rejection sysIssue1 "deposit" "1" "D-9").1 (by decide),
   (C6_mismatch_rejection sysIssue1 "deposit" "1" "D-9").2 (by decide)⟩

/-- C10: `add_ticket` with a ticket id already present in the service's
waiting queue is the identity on the whole in-memory state. -/
theorem C10_add_ticket_idempotent (mem : QueueSystem) (service tid : String)
    (h : tid ∈ (lookupA service mem.queues).getD []) :
    add_ticket service tid mem = mem := by
  have hl : ¬ lookupA service mem.queues = none := by
    intro hn
    rw [hn] at h
    simp at h
  simp [add_ticket, hl, h]

/-- C10 witness: re-adding the already queued `D-1` changes nothing. -/
theorem C10_add_ticket_idempotent_witness :
    add_ticket "deposit" "D-1" sysIssue1.mem = sysIssue1.mem :=
  C10_add_ticket_idempotent sysIssue1.mem "deposit" "D-1" (by decide)

-- Further association-list and filter lemmas.

theorem lookupA_modifyA {α β : Type} [DecidableEq α] (k : α) (f : β → β)
    (l : List (α × β)) : lookupA k (modifyA k f l) = (lookupA k l).map f := by
  induction l with
  | nil => rfl
  | cons p rest ih =>
    by_cases h : p.1 = k
    · show lookupA k ((if p.1 = k then (p.1, f p.2) else p) :: modifyA k f rest) =
        Option.map f (lookupA k (p :: rest))
      rw [if_pos h]
      show (if p.1 = k then some (f p.2) else lookupA k (modifyA k f rest)) =
        Option.map f (if p.1 = k then some p.2 else lookupA k rest)
      rw [if_pos h, if_pos h]
      rfl
    · show lookupA k ((if p.1 = k then (p.1, f p.2) else p) :: modifyA k f rest) =
        Option.map f (lookupA k (p :: rest))
      rw [if_neg h]
      show (if p.1 = k then some p.2 else lookupA k (modifyA k f rest)) =
        Option.map f (if p.1 = k then some p.2 else lookupA k rest)
      rw [if_neg h, if_neg h, ih]

theorem waiting_ids_after_mark (ts : List TicketRec) (x : String) :
    ((ts.map (fun tk => if tk.id = x then { tk with status := TStatus.assigned } else tk)).filter
        (fun t => t.status = TStatus.waiting)).map TicketRec.id =
      ((ts.filter (fun t => t.status = TStatus.waiting)).map TicketRec.id).filter
        (fun i => ¬ i = x) := by
  induction ts with
  | nil => rfl
  | cons t rest ih =>
    by_cases hid : t.id = x
    · by_cases hst : t.status = TStatus.waiting
      · simp [hid, hst, ih]
      · simp [hid, hst, ih]
    · by_cases hst : t.status = TStatus.waiting
      · simp [hid, hst, ih]
      · simp [hid, hst, ih]

-- Shape of one successful CallNext.

theorem nextRoute_ok_parts (service desk : String) (sys : Sys) (a : String)
    (qr : List String)
    (hq : lookupA service sys.mem.queues = some (a :: qr))
    (hg : ¬ ((storeWaiting service sys.store).length = 1 ∧
      memAssignedHas service ((storeWaiting service sys.store).headD defaultTicket).id
        sys.mem = true)) :
    nextRoute service desk sys =
      (NextRes.ok a desk,
        { mem := { queues := upsertA service qr sys.mem.queues,
                   ticket_counter := sys.mem.ticket_counter,
                   assigned := upsertA (service, desk) (some a) sys.mem.assigned,
                   serving := sys.mem.serving },
          store := { desks := sys.store.desks,
                     tickets := (modifyA service
                       (List.map (fun tk => if tk.id = a then
                         { tk with status := TStatus.assigned } else tk))
                       sys.store.tickets),
                     sessions := sys.store.sessions } }) := by
  unfold nextRoute
  rw [if_neg hg]
  unfold nextRouteGo next_ticket
  rw [hq]
  rfl

theorem storeWaiting_mk (service : String) (desks0 : List (String × List DeskRec))
    (tks : List (String × List TicketRec)) (sess : List (String × (String × String))) :
    storeWaiting service (⟨desks0, tks, sess⟩ : Store) =
      ((lookupA service tks).getD []).filter (fun t => t.status = TStatus.waiting) := rfl

theorem storeWaiting_ids_mark (service : String) (desks0 : List (String × List DeskRec))
    (tks : List (String × List TicketRec)) (sess : List (String × (String × String)))
    (a : String) (rest0 : List String)
    (hw : (storeWaiting service (⟨desks0, tks, sess⟩ : Store)).map TicketRec.id = a :: rest0)
    (hrest : ∀ i ∈ rest0, ¬ i = a) :
    (storeWaiting service (⟨desks0, (modifyA service
        (List.map (fun tk => if tk.id = a then { tk with status := TStatus.assigned } else tk))
        tks), sess⟩ : Store)).map TicketRec.id = rest0 := by
  rw [storeWaiting_mk] at hw
  rw [storeWaiting_mk, lookupA_modifyA]
  cases hts : lookupA service tks with
  | none =>
    rw [hts] at hw
    simp at hw
  | some ts =>
    rw [hts] at hw
    simp only [Option.map_some', Option.getD_some] at hw ⊢
    rw [waiting_ids_after_mark, hw, List.filter_cons]
    have hpa : (decide ¬ a = a) = false := by simp
    rw [hpa]
    simp only [Bool.false_eq_true, if_false]
    rw [List.filter_eq_self.mpr]
    intro i hi
    simpa using hrest i hi

/-- C4 counterexample: `sysTwoCalled` is a reachable state of service
`deposit` with exactly one Waiting ticket and a ticket (`D-1`) in Assigned
state, yet `CallNext("deposit","2")` is not throttled: it answers
`ok D-2` and mutates the state, where the claim demands a busy result with
no change. -/
theorem C4_busy_guard_counterexample :
    (storeWaiting "deposit" sysTwoCalled.store).length = 1 ∧
    (∃ t ∈ (lookupA "deposit" sysTwoCalled.store.tickets).getD [],
      t.status = TStatus.assigned) ∧
    (nextRoute "deposit" "2" sysTwoCalled).1 = NextRes.ok "D-2" "2" ∧
    ¬ (nextRoute "deposit" "2" sysTwoCalled).2 = sysTwoCalled := by decide

/-- C4 amended: `CallNext(S, desk)` returns busy exactly when the store
holds exactly one Waiting ticket for `S` and that very ticket is already in
the in-memory assigned map of `S` (not merely when some ticket of `S` is
Assigned); a busy result changes nothing.  And whenever at least two
tickets are Waiting (with the in-memory queue agreeing with the store and
no waiting ticket recorded as assigned), two consecutive `CallNext` calls
both succeed and obtain distinct tickets. -/
theorem C4_busy_guard_amended :
    (∀ (sys : Sys) (service desk : String),
      ((∃ t, (nextRoute service desk sys).1 = NextRes.busy t) ↔
        ((storeWaiting service sys.store).length = 1 ∧
          memAssignedHas service
            ((storeWaiting service sys.store).headD defaultTicket).id sys.mem = true)) ∧
      (∀ t, (nextRoute service desk sys).1 = NextRes.busy t →
        (nextRoute service desk sys).2 = sys)) ∧
    (∀ (sys : Sys) (service d1 d2 : String) (q : List String),
      lookupA service sys.mem.queues = some q →
      (storeWaiting service sys.store).map TicketRec.id = q →
      q.Nodup → 2 ≤ q.length →
      (∀ t ∈ q, memAssignedHas service t sys.mem = false) →
      ∃ t1 t2, (nextRoute service d1 sys).1 = NextRes.ok t1 d1 ∧
        (nextRoute service d2 (nextRoute service d1 sys).2).1 = NextRes.ok t2 d2 ∧
        ¬ t1 = t2) := by
  constructor
  · intro sys service desk
    by_cases hg : (storeWaiting service sys.store).length = 1 ∧
        memAssignedHas service ((storeWaiting service sys.store).headD defaultTicket).id
          sys.mem = true
    · constructor
      · exact ⟨fun _ => hg, fun _ => ⟨_, by unfold nextRoute; rw [if_pos hg]⟩⟩
      · intro t _
        unfold nextRoute
        rw [if_pos hg]
    · constructor
      · constructor
        · rintro ⟨t, ht⟩
          rw [show nextRoute service desk sys = nextRouteGo service desk sys by
            unfold nextRoute; rw [if_neg hg]] at ht
          exact absurd ht (nextRouteGo_not_busy service desk sys t)
        · intro hcon
          exact absurd hcon hg
      · intro t ht
        rw [show nextRoute service desk sys = nextRouteGo service desk sys by
          unfold nextRoute; rw [if_neg hg]] at ht
        exact absurd ht (nextRouteGo_not_busy service desk sys t)
  · intro sys service d1 d2 q hq hw hnd hlen hna
    rcases q with _ | ⟨a, q1⟩
    · simp at hlen
    rcases q1 with _ | ⟨b, qr⟩
    · simp at hlen
    have hab : ¬ a = b := by
      rcases List.nodup_cons.mp hnd with ⟨hnotin, _⟩
      intro hcon
      exact hnotin (hcon ▸ List.mem_cons_self _ _)
    have hlw : (storeWaiting service sys.store).length = qr.length + 2 := by
      have := congrArg List.length hw
      simpa using this
    have hg1 : ¬ ((storeWaiting service sys.store).length = 1 ∧
        memAssignedHas service ((storeWaiting service sys.store).headD defaultTicket).id
          sys.mem = true) := by
      intro hcon
      have := hcon.1
      omega
    have h1 := nextRoute_ok_parts service d1 sys a (b :: qr) hq hg1
    have hnotin : a ∉ b :: qr := (List.nodup_cons.mp hnd).1
    have hq1 : lookupA service (nextRoute service d1 sys).2.mem.queues = some (b :: qr) := by
      rw [h1]
      exact lookupA_upsertA_self service (b :: qr) sys.mem.queues
    have hw1 : (storeWaiting service (nextRoute service d1 sys).2.store).map TicketRec.id
        = b :: qr := by
      rw [h1]
      exact storeWaiting_ids_mark service sys.store.desks sys.store.tickets
        sys.store.sessions a (b :: qr) hw (fun i hi hia => hnotin (hia ▸ hi))
    have hassigned1 : (nextRoute service d1 sys).2.mem.assigned =
        upsertA (service, d1) (some a) sys.mem.assigned := by
      rw [h1]
    have hg2 : ¬ ((storeWaiting service (nextRoute service d1 sys).2.store).length = 1 ∧
        memAssignedHas service
          ((storeWaiting service (nextRoute service d1 sys).2.store).headD defaultTicket).id
          (nextRoute service d1 sys).2.mem = true) := by
      intro hcon
      rcases hws : storeWaiting service (nextRoute service d1 sys).2.store with _ | ⟨tb, ws⟩
      · rw [hws] at hw1
        simp at hw1
      · rw [hws] at hw1
        simp only [List.map_cons, List.cons.injEq] at hw1
        have htb : tb.id = b := hw1.1
        have hcon2 := hcon.2
        rw [hws] at hcon2
        simp only [List.headD_cons] at hcon2
        rw [htb] at hcon2
        unfold memAssignedHas at hcon2
        rw [hassigned1] at hcon2
        rcases List.any_eq_true.mp hcon2 with ⟨x, hxmem, hpx⟩
        rcases mem_upsertA hxmem with hx1 | hx2
        · subst hx1
          simp at hpx
          exact hab hpx
        · have hmm : memAssignedHas service b sys.mem = true :=
            List.any_eq_true.mpr ⟨x, hx2, hpx⟩
          have hfalse := hna b (by simp)
          rw [hfalse] at hmm
          cases hmm
    have h2 := nextRoute_ok_parts service d2 (nextRoute service d1 sys).2 b qr hq1 hg2
    refine ⟨a, b, ?_, ?_, hab⟩
    · rw [h1]
    · rw [h2]

/-- C4 witness for the amended theorem: with `D-1`, `D-2` both waiting,
two consecutive calls by desks 1 and 2 succeed with distinct tickets. -/
theorem C4_busy_guard_amended_witness :
    ∃ t1 t2, (nextRoute "deposit" "1" sysTwo).1 = NextRes.ok t1 "1" ∧
      (nextRoute "deposit" "2" (nextRoute "deposit" "1" sysTwo).2).1 = NextRes.ok t2 "2" ∧
      ¬ t1 = t2 :=
  C4_busy_guard_amended.2 sysTwo "deposit" "1" "2" ["D-1", "D-2"]
    (by decide) (by decide) (by decide) (by decide) (by decide)

-- Lookup lemmas for restart and counter restoration.

theorem lookupA_mapVal {α β γ : Type} [DecidableEq α] (k : α) (g : α → β → γ)
    (l : List (α × β)) :
    lookupA k (l.map (fun p => (p.1, g p.1 p.2))) = (lookupA k l).map (g k) := by
  induction l with
  | nil => rfl
  | cons p rest ih =>
    by_cases h : p.1 = k
    · show (if p.1 = k then some (g p.1 p.2) else
          lookupA k (rest.map (fun p => (p.1, g p.1 p.2)))) =
        Option.map (g k) (if p.1 = k then some p.2 else lookupA k rest)
      rw [if_pos h, if_pos h, h]
      rfl
    · show (if p.1 = k then some (g p.1 p.2) else
          lookupA k (rest.map (fun p => (p.1, g p.1 p.2)))) =
        Option.map (g k) (if p.1 = k then some p.2 else lookupA k rest)
      rw [if_neg h, if_neg h, ih]

theorem lookupA_filterVal {α β : Type} [DecidableEq α] {k : α} {v : β} (g : β → Bool)
    (l : List (α × β)) (hv : lookupA k l = some v) (hg : g v = true) :
    lookupA k (l.filter (fun p => g p.2)) = some v := by
  induction l with
  | nil => simp [lookupA] at hv
  | cons p rest ih =>
    rw [show lookupA k (p :: rest) = if p.1 = k then some p.2 else lookupA k rest from rfl]
      at hv
    by_cases h : p.1 = k
    · rw [if_pos h] at hv
      have hv2 : p.2 = v := Option.some.inj hv
      have hgp : g p.2 = true := hv2 ▸ hg
      rw [List.filter_cons, if_pos hgp]
      show (if p.1 = k then some p.2 else
        lookupA k (rest.filter (fun p => g p.2))) = some v
      rw [if_pos h, hv2]
    · rw [if_neg h] at hv
      by_cases hgp : g p.2 = true
      · rw [List.filter_cons, if_pos hgp]
        show (if p.1 = k then some p.2 else
          lookupA k (rest.filter (fun p => g p.2))) = some v
        rw [if_neg h]
        exact ih hv
      · rw [List.filter_cons, if_neg hgp]
        exact ih hv

theorem parseSeq_le_maxSeq {ts : List TicketRec} {t : TicketRec} (ht : t ∈ ts) :
    parseSeq t.id ≤ maxSeq ts := by
  induction ts with
  | nil => cases ht
  | cons u rest ih =>
    have hstep : maxSeq (u :: rest) = Nat.max (parseSeq u.id) (maxSeq rest) := rfl
    rcases List.mem_cons.mp ht with h | h
    · rw [hstep, h]
      exact Nat.le_max_left _ _
    · rw [hstep]
      exact le_trans (ih h) (Nat.le_max_right _ _)

theorem maxSeq_norm (ts : List TicketRec) :
    maxSeq (ts.map (fun t =>
      if t.status = TStatus.assigned then { t with status := TStatus.waiting } else t)) =
      maxSeq ts := by
  induction ts with
  | nil => rfl
  | cons t rest ih =>
    have hstep : ∀ (x : TicketRec) (l : List TicketRec),
        maxSeq (x :: l) = Nat.max (parseSeq x.id) (maxSeq l) := fun _ _ => rfl
    by_cases h : t.status = TStatus.assigned <;>
      simp [List.map_cons, hstep, h, ih]

theorem restoreDesk_counter (st : Store) (service : String) (mem : QueueSystem)
    (d : DeskRec) : (restoreDesk st service mem d).ticket_counter = mem.ticket_counter := by
  unfold restoreDesk
  split
  · rfl
  · split
    · rfl
    · split
      · rfl
      · split
        · rfl
        · rfl

theorem foldl_restoreDesk_counter (st : Store) (service : String) :
    ∀ (ds : List DeskRec) (mem : QueueSystem),
      (ds.foldl (restoreDesk st service) mem).ticket_counter = mem.ticket_counter := by
  intro ds
  induction ds with
  | nil => intro mem; rfl
  | cons d rest ih =>
    intro mem
    rw [List.foldl_cons, ih, restoreDesk_counter]

theorem restoreState_counter (st : Store) :
    (restoreState st).ticket_counter = restoreCounters st := by
  unfold restoreState
  have hall : ∀ (l : List (String × List DeskRec)) (mem : QueueSystem),
      (l.foldl (fun mem p => p.2.foldl (restoreDesk st p.1) mem) mem).ticket_counter =
        mem.ticket_counter := by
    intro l
    induction l with
    | nil => intro mem; rfl
    | cons p rest ih =>
      intro mem
      rw [List.foldl_cons, ih, foldl_restoreDesk_counter]
  rw [hall]

theorem add_ticket_counter (service tid : String) (mem : QueueSystem) :
    (add_ticket service tid mem).ticket_counter = mem.ticket_counter := by
  by_cases h : lookupA service mem.queues = none <;>
    simp [add_ticket, h] <;> split <;> rfl

theorem lifespanRestore_counter (st : Store) (mem : QueueSystem) :
    (lifespanRestore st mem).ticket_counter = mem.ticket_counter := by
  unfold lifespanRestore
  have hinner : ∀ (sname : String) (ts : List TicketRec) (m : QueueSystem),
      ((ts.foldl (fun m2 t => add_ticket sname t.id m2) m)).ticket_counter =
        m.ticket_counter := by
    intro sname ts
    induction ts with
    | nil => intro m; rfl
    | cons t rest ih =>
      intro m
      rw [List.foldl_cons, ih, add_ticket_counter]
  have hall : ∀ (l : List (String × List TicketRec)) (m : QueueSystem),
      (l.foldl (fun m p => ((p.2.filter (fun t => t.status = TStatus.waiting)).foldl
        (fun m2 t => add_ticket p.1 t.id m2) m)) m).ticket_counter = m.ticket_counter := by
    intro l
    induction l with
    | nil => intro m; rfl
    | cons p rest ih =>
      intro m
      rw [List.foldl_cons, ih, hinner]
  rw [hall]

theorem lookupA_restoreCounters (st : Store) (service : String) (tks : List TicketRec)
    (h : lookupA service st.tickets = some tks) (hne : tks ≠ []) :
    lookupA service (restoreCounters st) = some (maxSeq tks) := by
  unfold restoreCounters
  have h1 : lookupA service (st.tickets.filter (fun p => !p.2.isEmpty)) = some tks :=
    lookupA_filterVal (fun v => !v.isEmpty) st.tickets h (by simpa using hne)
  have h2 := lookupA_mapVal service (fun _ v => maxSeq v)
    (st.tickets.filter (fun p => !p.2.isEmpty))
  rw [h2, h1]
  rfl

theorem generate_ticket_fst (service : String) (sys : Sys) (k : Nat)
    (hc : lookupA service sys.mem.ticket_counter = some k) :
    (generate_ticket service sys).1 = mkTicketId service (k + 1) := by
  simp [generate_ticket, hc]

theorem restartSys_counter (st : Store) (service : String) (tks : List TicketRec)
    (h : lookupA service st.tickets = some tks) (hne : tks ≠ []) :
    lookupA service (restartSys st).mem.ticket_counter = some (maxSeq tks) := by
  have hmem : (restartSys st).mem.ticket_counter = restoreCounters (normalizeStore st) := by
    show (lifespanRestore (normalizeStore st) (restoreState (normalizeStore st))).ticket_counter
      = restoreCounters (normalizeStore st)
    rw [lifespanRestore_counter, restoreState_counter]
  rw [hmem]
  have hn : lookupA service (normalizeStore st).tickets =
      some (tks.map (fun t =>
        if t.status = TStatus.assigned then { t with status := TStatus.waiting } else t)) := by
    show lookupA service (st.tickets.map (fun p => (p.1, p.2.map (fun t =>
      if t.status = TStatus.assigned then { t with status := TStatus.waiting } else t)))) = _
    rw [lookupA_mapVal service (fun _ v => List.map (fun t : TicketRec =>
      if t.status = TStatus.assigned then { t with status := TStatus.waiting } else t) v), h]
    rfl
  have hne2 : tks.map (fun t =>
      if t.status = TStatus.assigned then { t with status := TStatus.waiting } else t) ≠ [] := by
    simpa using hne
  rw [lookupA_restoreCounters (normalizeStore st) service _ hn hne2, maxSeq_norm]

/-- C8: from a fresh state, issuing `n` tickets for a service yields ids
with sequence numbers exactly `1, …, n` in order, pairwise distinct; and
across a restart the counter is recomputed as the maximum persisted
sequence number, so the next issued id has a strictly larger sequence
number than every stored ticket — never reused. -/
theorem C8_ticket_id_allocation :
    (∀ (cfg : List (String × Nat)) (service : String) (n : Nat),
      (issueN service n (initSys cfg)).1 =
        (List.range n).map (fun i => mkTicketId service (i + 1)) ∧
      ((List.range n).map (fun i => i + 1)).Nodup) ∧
    (∀ (st : Store) (service : String),
      (lookupA service st.tickets).getD [] ≠ [] →
      lookupA service (restartSys st).mem.ticket_counter =
        some (maxSeq ((lookupA service st.tickets).getD [])) ∧
      (generate_ticket service (restartSys st)).1 =
        mkTicketId service (maxSeq ((lookupA service st.tickets).getD []) + 1) ∧
      (∀ t ∈ (lookupA service st.tickets).getD [],
        parseSeq t.id < maxSeq ((lookupA service st.tickets).getD []) + 1)) := by
  constructor
  · intro cfg service n
    refine ⟨?_, ?_⟩
    · rw [(issueN_init cfg service n).1, idsFrom_zero]
    · exact (List.nodup_range n).map (fun a b hab => by omega)
  · intro st service hne
    cases hts : lookupA service st.tickets with
    | none =>
      rw [hts] at hne
      simp at hne
    | some tks =>
      rw [hts] at hne
      simp only [Option.getD_some] at hne
      simp only [Option.getD_some]
      have hcnt := restartSys_counter st service tks hts hne
      refine ⟨hcnt, generate_ticket_fst service (restartSys st) (maxSeq tks) hcnt, ?_⟩
      intro t ht
      have := parseSeq_le_maxSeq ht
      omega

/-- C8 witness at the concrete restart scenario: the restored counter is the
maximum stored sequence number and the next id strictly exceeds all stored
sequence numbers. -/
theorem C8_ticket_id_allocation_witness :
    lookupA "deposit" (restartSys sysPreRestart.store).mem.ticket_counter =
      some (maxSeq ((lookupA "deposit" sysPreRestart.store.tickets).getD [])) ∧
    (generate_ticket "deposit" (restartSys sysPreRestart.store)).1 =
      mkTicketId "deposit"
        (maxSeq ((lookupA "deposit" sysPreRestart.store.tickets).getD []) + 1) ∧
    (∀ t ∈ (lookupA "deposit" sysPreRestart.store.tickets).getD [],
      parseSeq t.id <
        maxSeq ((lookupA "deposit" sysPreRestart.store.tickets).getD []) + 1) :=
  C8_ticket_id_allocation.2 sysPreRestart.store "deposit" (by decide)

/-- C9 amended: of the operations, only the desk claim route surfaces an
unknown desk as NotFound; `CallNext` on an unknown service answers the
success-shaped `empty` result (unknown service behaves as an empty queue),
and `/clerk_state` on an unknown desk answers the idle success shape. -/
theorem C9_notfound_amended :
    (∀ (sys : Sys) (service desk_id : String) (cookie : Option String) (tok : String),
      firstDesk service desk_id sys.store = none →
      clerkSelect service desk_id cookie tok sys = (ClerkRes.notFound, sys)) ∧
    (∀ (sys : Sys) (service desk : String),
      lookupA service sys.store.tickets = none →
      lookupA service sys.mem.queues = none →
      nextRoute service desk sys = (NextRes.empty, sys)) ∧
    (∀ (st : Store) (service desk : String),
      firstDesk service desk st = none →
      clerkState service desk st = ClerkStateRes.idle) := by
  refine ⟨?_, ?_, ?_⟩
  · intro sys service desk_id cookie tok hfd
    unfold clerkSelect
    rw [hfd]
  · intro sys service desk hts hqs
    have hsw : storeWaiting service sys.store = [] := by
      unfold storeWaiting
      rw [hts]
      rfl
    unfold nextRoute
    rw [hsw]
    rw [if_neg (by simp)]
    unfold nextRouteGo next_ticket
    rw [hqs]
  · intro st service desk hfd
    unfold clerkState
    rw [hfd]

/-- C9 amended witness at concrete unknown inputs: desk `9` does not exist
and service `ghostly` has no tickets anywhere. -/
theorem C9_notfound_amended_witness :
    clerkSelect "deposit" "9" none "tok" (initSys [("deposit", 1)]) =
      (ClerkRes.notFound, initSys [("deposit", 1)]) ∧
    nextRoute "ghostly" "1" sysIssue1 = (NextRes.empty, sysIssue1) ∧
    clerkState "deposit" "9" sysIssue1.store = ClerkStateRes.idle :=
  ⟨C9_notfound_amended.1 (initSys [("deposit", 1)]) "deposit" "9" none "tok" (by decide),
   C9_notfound_amended.2.1 sysIssue1 "ghostly" "1" (by decide) (by decide),
   C9_notfound_amended.2.2 sysIssue1.store "deposit" "9" (by decide)⟩

-- Desk-record find lemmas for the session invariant.

theorem lookupA_modifyA_ne {α β : Type} [DecidableEq α] {k k' : α} (hne : ¬ k = k')
    (f : β → β) (l : List (α × β)) : lookupA k' (modifyA k f l) = lookupA k' l := by
  induction l with
  | nil => rfl
  | cons p rest ih =>
    by_cases h : p.1 = k
    · show lookupA k' ((if p.1 = k then (p.1, f p.2) else p) :: modifyA k f rest) =
        (if p.1 = k' then some p.2 else lookupA k' rest)
      rw [if_pos h]
      have hp : ¬ p.1 = k' := fun hc => hne (by rw [← h, hc])
      show (if p.1 = k' then some (f p.2) else lookupA k' (modifyA k f rest)) = _
      rw [if_neg hp, if_neg hp, ih]
    · show lookupA k' ((if p.1 = k then (p.1, f p.2) else p) :: modifyA k f rest) =
        (if p.1 = k' then some p.2 else lookupA k' rest)
      rw [if_neg h]
      show (if p.1 = k' then some p.2 else lookupA k' (modifyA k f rest)) = _
      by_cases h2 : p.1 = k'
      · rw [if_pos h2, if_pos h2]
      · rw [if_neg h2, if_neg h2, ih]

theorem find?_map_id {f : DeskRec → DeskRec} (hid : ∀ d, (f d).id = d.id)
    (l : List DeskRec) (x : String) :
    (l.map f).find? (fun d => decide (d.id = x)) =
      (l.find? (fun d => decide (d.id = x))).map f := by
  induction l with
  | nil => rfl
  | cons d rest ih =>
    by_cases h : d.id = x
    · have hp1 : decide ((f d).id = x) = true := by simp [hid d, h]
      have hp2 : decide (d.id = x) = true := by simp [h]
      simp only [List.map_cons, List.find?, hp1, hp2]
      rfl
    · have hp1 : decide ((f d).id = x) = false := by simp [hid d, h]
      have hp2 : decide (d.id = x) = false := by simp [h]
      simp only [List.map_cons, List.find?, hp1, hp2]
      exact ih

theorem firstDesk_modify_empty (service : String) (f : DeskRec → DeskRec) (st : Store)
    {s2 d2 : String} {st' : Store}
    (hdesks : st'.desks = modifyA service (List.map f) st.desks)
    (hid : ∀ d, (f d).id = d.id)
    (hst : ∀ d, (f d).status = d.status ∨ (f d).status = DStatus.occupied)
    {d' : DeskRec}
    (hfd : firstDesk s2 d2 st' = some d') (hds : d'.status = DStatus.empty) :
    ∃ d, firstDesk s2 d2 st = some d ∧ d.status = DStatus.empty := by
  unfold firstDesk at hfd ⊢
  rw [hdesks] at hfd
  by_cases hsv : service = s2
  · subst hsv
    rw [lookupA_modifyA] at hfd
    cases hlk : lookupA service st.desks with
    | none =>
      rw [hlk] at hfd
      simp at hfd
    | some ds =>
      rw [hlk] at hfd
      simp only [Option.map_some', Option.getD_some] at hfd
      rw [find?_map_id hid] at hfd
      cases hf0 : ds.find? (fun d => decide (d.id = d2)) with
      | none =>
        rw [hf0] at hfd
        simp at hfd
      | some d0 =>
        rw [hf0] at hfd
        simp only [Option.map_some'] at hfd
        have hd0 : f d0 = d' := Option.some.inj hfd
        refine ⟨d0, ?_, ?_⟩
        · simpa using hf0
        · rcases hst d0 with hh | hh
          · rw [← hh, hd0]
            exact hds
          · exfalso
            rw [← hd0, hh] at hds
            cases hds
  · rw [lookupA_modifyA_ne hsv] at hfd
    exact ⟨d', hfd, hds⟩

theorem find?_updateFirstDesk {desk_id : String} {l : List DeskRec} {d0 : DeskRec}
    (h : l.find? (fun d => decide (d.id = desk_id)) = some d0) :
    (updateFirstDesk desk_id l).find? (fun d => decide (d.id = desk_id)) =
      some { d0 with status := DStatus.occupied } := by
  induction l with
  | nil => simp [List.find?] at h
  | cons d rest ih =>
    by_cases hd : d.id = desk_id
    · have hp1 : decide (d.id = desk_id) = true := by simp [hd]
      simp only [List.find?, hp1] at h
      have hdd : d = d0 := Option.some.inj h
      subst hdd
      rw [show updateFirstDesk desk_id (d :: rest) =
        { d with status := DStatus.occupied } :: rest by simp [updateFirstDesk, hd]]
      have hp2 : decide (({ d with status := DStatus.occupied } : DeskRec).id = desk_id)
          = true := by simp [hd]
      simp only [List.find?, hp2]
    · have hp1 : decide (d.id = desk_id) = false := by simp [hd]
      simp only [List.find?, hp1] at h
      rw [show updateFirstDesk desk_id (d :: rest) = d :: updateFirstDesk desk_id rest by
        simp [updateFirstDesk, hd]]
      simp only [List.find?, hp1]
      exact ih h

theorem find?_updateFirstDesk_ne {desk_id y : String} (hne : ¬ y = desk_id)
    (l : List DeskRec) :
    (updateFirstDesk desk_id l).find? (fun d => decide (d.id = y)) =
      l.find? (fun d => decide (d.id = y)) := by
  induction l with
  | nil => rfl
  | cons d rest ih =>
    by_cases hd : d.id = desk_id
    · rw [show updateFirstDesk desk_id (d :: rest) =
        { d with status := DStatus.occupied } :: rest by simp [updateFirstDesk, hd]]
      have hny : ¬ d.id = y := by
        rw [hd]
        exact fun hc => hne hc.symm
      have hp1 : decide (({ d with status := DStatus.occupied } : DeskRec).id = y)
          = false := by simp [hny]
      have hp2 : decide (d.id = y) = false := by simp [hny]
      simp only [List.find?, hp1, hp2]
    · rw [show updateFirstDesk desk_id (d :: rest) = d :: updateFirstDesk desk_id rest by
        simp [updateFirstDesk, hd]]
      by_cases hy : d.id = y
      · have hp : decide (d.id = y) = true := by simp [hy]
        simp only [List.find?, hp]
      · have hp : decide (d.id = y) = false := by simp [hy]
        simp only [List.find?, hp]
        exact ih

theorem sessInv_transfer {old new : Store}
    (hsess : new.sessions = old.sessions)
    (hdesk : ∀ (service desk_id : String) (d' : DeskRec),
      firstDesk service desk_id new = some d' → d'.status = DStatus.empty →
      ∃ d, firstDesk service desk_id old = some d ∧ d.status = DStatus.empty)
    (hinv : SessInv old) : SessInv new := by
  intro service desk_id
  have hb : boundSessions service desk_id new = boundSessions service desk_id old := by
    unfold boundSessions
    rw [hsess]
  refine ⟨?_, ?_⟩
  · rw [hb]
    exact (hinv service desk_id).1
  · intro d hd hds
    rcases hdesk service desk_id d hd hds with ⟨d0, hd0, hds0⟩
    rw [hb]
    exact (hinv service desk_id).2 d0 hd0 hds0

theorem clerkSelect_store_cases (service desk_id : String) (cookie : Option String)
    (tok : String) (sys : Sys) :
    (clerkSelect service desk_id cookie tok sys).2 = sys ∨
    (∃ dsk, firstDesk service desk_id sys.store = some dsk ∧
      dsk.status = DStatus.empty ∧
      (clerkSelect service desk_id cookie tok sys).2.store =
        { sys.store with
          desks := (upsertA service
            (updateFirstDesk desk_id ((lookupA service sys.store.desks).getD []))
            sys.store.desks),
          sessions := (upsertA tok (service, desk_id) sys.store.sessions) }) := by
  unfold clerkSelect
  split
  · exact Or.inl rfl
  · rename_i dsk hfd
    split
    · split
      · split
        · exact Or.inl rfl
        · exact Or.inl rfl
      · exact Or.inl rfl
    · rename_i hoc
      right
      refine ⟨dsk, hfd, ?_, rfl⟩
      cases h2 : dsk.status with
      | empty => rfl
      | occupied => exact absurd h2 hoc

theorem sessInv_of_eq {s : Sys} {st' : Store}
    (hsess : st'.sessions = s.store.sessions)
    (hdesks : st'.desks = s.store.desks)
    (hinv : SessInv s.store) : SessInv st' := by
  apply sessInv_transfer hsess ?_ hinv
  intro sv dk d' hfd hds
  refine ⟨d', ?_, hds⟩
  unfold firstDesk at hfd ⊢
  rw [hdesks] at hfd
  exact hfd

theorem sessInv_claim (service desk_id : String) (cookie : Option String) (tok : String)
    (s : Sys) (hinv : SessInv s.store) :
    SessInv (clerkSelect service desk_id cookie tok s).2.store := by
  rcases clerkSelect_store_cases service desk_id cookie tok s with heq | ⟨dsk, hfd, hds, hst2⟩
  · rw [heq]
    exact hinv
  · rw [hst2]
    have hb0 : boundSessions service desk_id s.store = 0 :=
      (hinv service desk_id).2 dsk hfd hds
    have hdesks_new : ({ s.store with
        desks := (upsertA service
          (updateFirstDesk desk_id ((lookupA service s.store.desks).getD []))
          s.store.desks),
        sessions := (upsertA tok (service, desk_id) s.store.sessions) } : Store).desks =
        upsertA service
          (updateFirstDesk desk_id ((lookupA service s.store.desks).getD []))
          s.store.desks := rfl
    intro sv dk
    constructor
    · by_cases hsd : sv = service ∧ dk = desk_id
      · obtain ⟨h1, h2⟩ := hsd
        rw [h1, h2]
        show (upsertA tok (service, desk_id) s.store.sessions).countP
          (fun p => decide (p.2 = (service, desk_id))) ≤ 1
        have hsucc := countP_upsertA_le_succ
          (fun p : String × (String × String) => decide (p.2 = (service, desk_id)))
          tok (service, desk_id) s.store.sessions
        unfold boundSessions at hb0
        omega
      · have hp : (fun p : String × (String × String) =>
            decide (p.2 = (sv, dk))) (tok, (service, desk_id)) = false := by
          simp only [decide_eq_false_iff_not]
          intro hc
          rw [Prod.mk.injEq] at hc
          exact hsd ⟨hc.1.symm, hc.2.symm⟩
        have hle := @countP_upsertA_le String (String × String) _
          (fun p => decide (p.2 = (sv, dk))) tok (service, desk_id) hp s.store.sessions
        have hold := (hinv sv dk).1
        unfold boundSessions at hold
        show (upsertA tok (service, desk_id) s.store.sessions).countP
          (fun p => decide (p.2 = (sv, dk))) ≤ 1
        omega
    · intro d' hfd' hds'
      by_cases hsv : service = sv
      · by_cases hdk : dk = desk_id
        · exfalso
          have hnew : firstDesk sv dk
              ({ s.store with
                desks := (upsertA service
                  (updateFirstDesk desk_id ((lookupA service s.store.desks).getD []))
                  s.store.desks),
                sessions := (upsertA tok (service, desk_id) s.store.sessions) } : Store) =
              some { dsk with status := DStatus.occupied } := by
            unfold firstDesk
            rw [hdesks_new, ← hsv, hdk, lookupA_upsertA_self]
            simp only [Option.getD_some]
            exact find?_updateFirstDesk hfd
          rw [hnew] at hfd'
          have hd2 := Option.some.inj hfd'
          rw [← hd2] at hds'
          simp at hds'
        · have hfd0 : firstDesk sv dk s.store = some d' := by
            unfold firstDesk at hfd' ⊢
            rw [hdesks_new, ← hsv, lookupA_upsertA_self] at hfd'
            simp only [Option.getD_some] at hfd'
            rw [find?_updateFirstDesk_ne hdk] at hfd'
            rw [← hsv]
            exact hfd'
          have hb := (hinv sv dk).2 d' hfd0 hds'
          have hp : (fun p : String × (String × String) =>
              decide (p.2 = (sv, dk))) (tok, (service, desk_id)) = false := by
            simp only [decide_eq_false_iff_not]
            intro hc
            rw [Prod.mk.injEq] at hc
            exact hdk hc.2.symm
          have hle := @countP_upsertA_le String (String × String) _
            (fun p => decide (p.2 = (sv, dk))) tok (service, desk_id) hp s.store.sessions
          unfold boundSessions at hb
          show (upsertA tok (service, desk_id) s.store.sessions).countP
            (fun p => decide (p.2 = (sv, dk))) = 0
          omega
      · have hfd0 : firstDesk sv dk s.store = some d' := by
          unfold firstDesk at hfd' ⊢
          rw [hdesks_new, lookupA_upsertA_ne hsv] at hfd'
          exact hfd'
        have hb := (hinv sv dk).2 d' hfd0 hds'
        have hp : (fun p : String × (String × String) =>
            decide (p.2 = (sv, dk))) (tok, (service, desk_id)) = false := by
          simp only [decide_eq_false_iff_not]
          intro hc
          rw [Prod.mk.injEq] at hc
          exact hsv hc.1
        have hle := @countP_upsertA_le String (String × String) _
          (fun p => decide (p.2 = (sv, dk))) tok (service, desk_id) hp s.store.sessions
        unfold boundSessions at hb
        show (upsertA tok (service, desk_id) s.store.sessions).countP
          (fun p => decide (p.2 = (sv, dk))) = 0
        omega

theorem sessInv_step {s s' : Sys} (hstep : Step s s') (hinv : SessInv s.store) :
    SessInv s'.store := by
  cases hstep with
  | issue service s =>
    exact sessInv_of_eq rfl rfl hinv
  | callNext service desk s =>
    have hS : (nextRoute service desk s).2.store.sessions = s.store.sessions ∧
        (nextRoute service desk s).2.store.desks = s.store.desks := by
      unfold nextRoute
      by_cases hg : (storeWaiting service s.store).length = 1 ∧
          memAssignedHas service
            ((storeWaiting service s.store).headD defaultTicket).id s.mem = true
      · rw [if_pos hg]
        exact ⟨rfl, rfl⟩
      · rw [if_neg hg]
        unfold nextRouteGo
        rcases hnt : next_ticket service s.mem with ⟨o, m⟩
        cases o <;> exact ⟨rfl, rfl⟩
    exact sessInv_of_eq hS.1 hS.2 hinv
  | confirm service desk ticket s =>
    by_cases hc : get_assigned service desk s.mem = some ticket
    · unfold confirmRoute
      rw [if_pos hc]
      refine sessInv_transfer ?_ ?_ hinv
      · rfl
      intro sv dk d' hfd hds
      have step3 := firstDesk_modify_empty service
        (fun d => if d.id = desk then
          { d with status := DStatus.occupied, current_ticket := some ticket } else d)
        { s.store with desks := (modifyA service (List.map (fun d =>
            if d.id = desk then { d with current_ticket := none } else d))
          (modifyA service (List.map (fun d => if d.id = desk then
            { d with current_ticket := some ticket, status := DStatus.occupied } else d))
            s.store.desks)) }
        rfl
        (by intro d; by_cases h : d.id = desk <;> simp [h])
        (by intro d; by_cases h : d.id = desk <;> simp [h])
        hfd hds
      rcases step3 with ⟨e2, hfd2, hds2⟩
      have step2 := firstDesk_modify_empty service
        (fun d => if d.id = desk then { d with current_ticket := none } else d)
        { s.store with desks := (modifyA service (List.map (fun d => if d.id = desk then
            { d with current_ticket := some ticket, status := DStatus.occupied } else d))
            s.store.desks) }
        rfl
        (by intro d; by_cases h : d.id = desk <;> simp [h])
        (by intro d; by_cases h : d.id = desk <;> simp [h])
        hfd2 hds2
      rcases step2 with ⟨e1, hfd1, hds1⟩
      exact firstDesk_modify_empty service
        (fun d => if d.id = desk then
          { d with current_ticket := some ticket, status := DStatus.occupied } else d)
        s.store rfl
        (by intro d; by_cases h : d.id = desk <;> simp [h])
        (by intro d; by_cases h : d.id = desk <;> simp [h])
        hfd1 hds1
    · unfold confirmRoute
      rw [if_neg hc]
      exact hinv
  | complete service desk ticket s =>
    by_cases hc : get_serving service desk s.mem = some ticket
    · unfold doneRoute
      rw [if_pos hc]
      refine sessInv_transfer ?_ ?_ hinv
      · rfl
      intro sv dk d' hfd hds
      have step2 := firstDesk_modify_empty service
        (fun d => if d.id = desk then
          { d with current_ticket := none, status := DStatus.occupied } else d)
        { s.store with desks := (modifyA service (List.map (fun d => if d.id = desk then
            { d with current_ticket := none, status := DStatus.occupied } else d))
            s.store.desks) }
        rfl
        (by intro d; by_cases h : d.id = desk <;> simp [h])
        (by intro d; by_cases h : d.id = desk <;> simp [h])
        hfd hds
      rcases step2 with ⟨e1, hfd1, hds1⟩
      exact firstDesk_modify_empty service
        (fun d => if d.id = desk then
          { d with current_ticket := none, status := DStatus.occupied } else d)
        s.store rfl
        (by intro d; by_cases h : d.id = desk <;> simp [h])
        (by intro d; by_cases h : d.id = desk <;> simp [h])
        hfd1 hds1
    · unfold doneRoute
      rw [if_neg hc]
      exact hinv
  | claim service desk_id cookie tok s =>
    exact sessInv_claim service desk_id cookie tok s hinv

theorem sessInv_reachable {s : Sys} (h : Reachable s) : SessInv s.store := by
  induction h with
  | init services =>
    intro sv dk
    refine ⟨?_, fun d _ _ => ?_⟩
    · exact Nat.zero_le 1
    · rfl
  | step hr hstep ih => exact sessInv_step hstep ih

/-- C7: a `ClaimOrResume` on an Empty desk mints the fresh session token,
marks the desk Occupied and binds exactly that token in the store; on an
Occupied desk the owning session's cookie resumes with no state change; any
other or missing cookie is denied with no state change; and in every
reachable state at most one session is bound to any desk. -/
theorem C7_session_exclusivity :
    (∀ (sys : Sys) (service desk_id : String) (cookie : Option String) (tok : String)
      (dsk : DeskRec),
      firstDesk service desk_id sys.store = some dsk → dsk.status = DStatus.empty →
      (clerkSelect service desk_id cookie tok sys).1 = ClerkRes.fresh tok ∧
      lookupA tok (clerkSelect service desk_id cookie tok sys).2.store.sessions =
        some (service, desk_id) ∧
      firstDesk service desk_id (clerkSelect service desk_id cookie tok sys).2.store =
        some { dsk with status := DStatus.occupied }) ∧
    (∀ (sys : Sys) (service desk_id : String) (tok : String) (dsk : DeskRec)
      (owner : String),
      firstDesk service desk_id sys.store = some dsk → dsk.status = DStatus.occupied →
      ownerOf service desk_id sys.store = some owner → ¬ owner = "" →
      clerkSelect service desk_id (some owner) tok sys = (ClerkRes.resumed, sys)) ∧
    (∀ (sys : Sys) (service desk_id : String) (cookie : Option String) (tok : String)
      (dsk : DeskRec),
      firstDesk service desk_id sys.store = some dsk → dsk.status = DStatus.occupied →
      (∀ owner, ownerOf service desk_id sys.store = some owner →
        ¬ owner = "" → ¬ cookie = some owner) →
      clerkSelect service desk_id cookie tok sys = (ClerkRes.denied, sys)) ∧
    (∀ sys : Sys, Reachable sys → ∀ service desk_id : String,
      boundSessions service desk_id sys.store ≤ 1) := by
  refine ⟨?_, ?_, ?_, ?_⟩
  · intro sys service desk_id cookie tok dsk hfd hds
    have hnoc : ¬ dsk.status = DStatus.occupied := by
      intro hcon
      rw [hds] at hcon
      cases hcon
    have hred : clerkSelect service desk_id cookie tok sys =
        (ClerkRes.fresh tok,
          { sys with store :=
            { sys.store with
              desks := (upsertA service
                (updateFirstDesk desk_id ((lookupA service sys.store.desks).getD []))
                sys.store.desks),
              sessions := (upsertA tok (service, desk_id) sys.store.sessions) } }) := by
      simp only [clerkSelect, hfd]
      rw [if_neg hnoc]
    refine ⟨?_, ?_, ?_⟩
    · rw [hred]
    · rw [hred]
      exact lookupA_upsertA_self tok (service, desk_id) sys.store.sessions
    · rw [hred]
      show ((lookupA service (upsertA service
        (updateFirstDesk desk_id ((lookupA service sys.store.desks).getD []))
        sys.store.desks)).getD []).find? (fun d => decide (d.id = desk_id)) =
        some { dsk with status := DStatus.occupied }
      rw [lookupA_upsertA_self]
      simp only [Option.getD_some]
      exact find?_updateFirstDesk hfd
  · intro sys service desk_id tok dsk owner hfd hoc how hown
    simp [clerkSelect, hfd, hoc, how, hown]
  · intro sys service desk_id cookie tok dsk hfd hoc hother
    cases how : ownerOf service desk_id sys.store with
    | none => simp [clerkSelect, hfd, hoc, how]
    | some owner =>
      have hno : ¬ (owner ≠ "" ∧ cookie = some owner) := by
        rintro ⟨h1, h2⟩
        exact hother owner how h1 h2
      simp only [clerkSelect, hfd, hoc, how]
      simp [hno]
  · intro sys hr service desk_id
    exact (sessInv_reachable hr service desk_id).1

/-- C7 witness: claiming the empty desk succeeds with the fresh token, the
owner resumes, an intruder cookie is denied, and the reachable claimed
state binds at most one session to the desk. -/
theorem C7_session_exclusivity_witness :
    (clerkSelect "deposit" "1" none "tok-1" (initSys [("deposit", 1)])).1 =
      ClerkRes.fresh "tok-1" ∧
    clerkSelect "deposit" "1" (some "tok-1") "tok-2" sysClaimed =
      (ClerkRes.resumed, sysClaimed) ∧
    clerkSelect "deposit" "1" (some "intruder") "tok-3" sysClaimed =
      (ClerkRes.denied, sysClaimed) ∧
    boundSessions "deposit" "1" sysClaimed.store ≤ 1 := by
  refine ⟨?_, ?_, ?_, ?_⟩
  · exact (C7_session_exclusivity.1 (initSys [("deposit", 1)]) "deposit" "1" none "tok-1"
      { id := "1", status := DStatus.empty, current_ticket := none }
      (by decide) (by decide)).1
  · exact C7_session_exclusivity.2.1 sysClaimed "deposit" "1" "tok-2"
      { id := "1", status := DStatus.occupied, current_ticket := none } "tok-1"
      (by decide) (by decide) (by decide) (by decide)
  · refine C7_session_exclusivity.2.2.1 sysClaimed "deposit" "1" (some "intruder") "tok-3"
      { id := "1", status := DStatus.occupied, current_ticket := none }
      (by decide) (by decide) ?_
    intro owner heq h1 hcon
    have hcomp : ownerOf "deposit" "1" sysClaimed.store = some "tok-1" := by decide
    rw [hcomp] at heq
    have howner : owner = "tok-1" := (Option.some.inj heq).symm
    rw [howner] at hcon
    have : "intruder" = "tok-1" := Option.some.inj hcon
    exact absurd this (by decide)
  · exact C7_session_exclusivity.2.2.2 sysClaimed
      (Reachable.step (Reachable.init [("deposit", 1)])
        (Step.claim "deposit" "1" none "tok-1" (initSys [("deposit", 1)])))
      "deposit" "1"
